import Mathlib

/-!
Verification of the event-status logic of the deaflympics2025 page
(`src/js/main.js`).

Instants are modelled as integers (milliseconds since the epoch), matching
`Date.prototype.getTime()`.  JavaScript `Math.floor(a / b)` on integer
operands with a positive divisor is `Int.fdiv`, and the JavaScript remainder
operator `%` (sign of the dividend) is `Int.tmod`.  A JavaScript number that
may be `NaN` (the result of parsing an invalid date string) is modelled as
`Option Int`, with `none` standing for `NaN`; every comparison against `NaN`
is false and every arithmetic operation on `NaN` returns `NaN`.
-/

namespace Deaflympics

/-- 3 minutes buffer before actual start (Upcoming to Live), in ms.
Source: `const LIVE_THRESHOLD_MS = 3 * 60 * 1000`. -/
def LIVE_THRESHOLD_MS : Int := 3 * 60 * 1000

/-- 6 hours duration after the event start time (Live to Passed), in ms.
Source: `const LIVE_DURATION_MS = 6 * 60 * 60 * 1000`. -/
def LIVE_DURATION_MS : Int := 6 * 60 * 60 * 1000

/-- The status value computed by `getEventStatus`: the `status` tag together
with the countdown components that the `upcoming` branch computes
(`days`, `hours`, `minutes`, `seconds` of the timer text). -/
inductive EventStatus where
  | upcoming (days hours minutes seconds : Int)
  | live
  | passed
deriving DecidableEq, Repr

/-- Shallow embedding of `getEventStatus` (src/js/main.js lines 61-98) for a
finite event instant `eventTime` and a finite current instant `now`, both in
milliseconds.  The original reads `now` from the ambient clock and parses
`eventISODate`; here both instants are explicit arguments. -/
def getEventStatus (eventTime now : Int) : EventStatus :=
  let distanceToStart := eventTime - now
  let liveEndTime := eventTime + LIVE_DURATION_MS
  let distanceToLiveEnd := liveEndTime - now
  if distanceToLiveEnd < 0 then
    EventStatus.passed
  else if distanceToStart ≤ LIVE_THRESHOLD_MS then
    EventStatus.live
  else
    let distance := distanceToStart
    let days := distance.fdiv (1000 * 60 * 60 * 24)
    let hours := (distance.tmod (1000 * 60 * 60 * 24)).fdiv (1000 * 60 * 60)
    let minutes := (distance.tmod (1000 * 60 * 60)).fdiv (1000 * 60)
    let seconds := (distance.tmod (1000 * 60)).fdiv 1000
    EventStatus.upcoming days hours minutes seconds

/-- `true` exactly on the `upcoming` constructor. -/
def EventStatus.isUpcoming : EventStatus → Bool
  | .upcoming _ _ _ _ => true
  | _ => false

/-- `true` exactly on the `live` constructor. -/
def EventStatus.isLive : EventStatus → Bool
  | .live => true
  | _ => false

/-- `true` exactly on the `passed` constructor. -/
def EventStatus.isPassed : EventStatus → Bool
  | .passed => true
  | _ => false

/-- Position of a status in the state-machine order `upcoming → live → passed`. -/
def EventStatus.rank : EventStatus → Nat
  | .upcoming _ _ _ _ => 0
  | .live => 1
  | .passed => 2

/-!
### The presentation driver

`item.dataset.eventDate` is a string attribute that may be absent, and
JavaScript string falsiness makes the guard `if (!eventDate || ...) return`
skip exactly the absent and the empty string.  `new Date(s).getTime()` on an
unparseable string yields `NaN`; date parsing is modelled as an explicit
capability `parse : String → Option Int`, `none` standing for `NaN`.
-/

/-- A JavaScript number that may be `NaN`: `none` is `NaN`. -/
abbrev JSNum := Option Int

/-- `a - b` where the left operand may be `NaN`, which propagates. -/
def jsSub (a : JSNum) (b : Int) : JSNum := a.map (· - b)

/-- `a + b` where the left operand may be `NaN`, which propagates. -/
def jsAdd (a : JSNum) (b : Int) : JSNum := a.map (· + b)

/-- `a < b`: every comparison against `NaN` is false. -/
def jsLt (a : JSNum) (b : Int) : Bool :=
  match a with
  | some x => decide (x < b)
  | none => false

/-- `a ≤ b`: every comparison against `NaN` is false. -/
def jsLe (a : JSNum) (b : Int) : Bool :=
  match a with
  | some x => decide (x ≤ b)
  | none => false

/-- `Math.floor(a / b)` for a positive integer divisor; `NaN` propagates. -/
def jsFloorDiv (a : JSNum) (b : Int) : JSNum := a.map (·.fdiv b)

/-- The remainder `a % b` (sign of the dividend); `NaN` propagates. -/
def jsMod (a : JSNum) (b : Int) : JSNum := a.map (·.tmod b)

/-- The status computed inside the driver, whose countdown components may be
`NaN` when the event date string did not parse. -/
inductive JSStatus where
  | upcoming (days hours minutes seconds : JSNum)
  | live
  | passed
deriving DecidableEq, Repr

/-- `getEventStatus` as the driver calls it: the event instant is
`new Date(eventISODate).getTime()`, which is `NaN` (`none`) when the date
string is unparseable.  With a `NaN` event time both branch guards are
false, so the upcoming branch runs and produces `NaN` components. -/
def getEventStatusJS (eventTime : JSNum) (now : Int) : JSStatus :=
  let distanceToStart := jsSub eventTime now
  let liveEndTime := jsAdd eventTime LIVE_DURATION_MS
  let distanceToLiveEnd := jsSub liveEndTime now
  if jsLt distanceToLiveEnd 0 then
    JSStatus.passed
  else if jsLe distanceToStart LIVE_THRESHOLD_MS then
    JSStatus.live
  else
    let distance := distanceToStart
    let days := jsFloorDiv distance (1000 * 60 * 60 * 24)
    let hours := jsFloorDiv (jsMod distance (1000 * 60 * 60 * 24)) (1000 * 60 * 60)
    let minutes := jsFloorDiv (jsMod distance (1000 * 60 * 60)) (1000 * 60)
    let seconds := jsFloorDiv (jsMod distance (1000 * 60)) 1000
    JSStatus.upcoming days hours minutes seconds

/-- An accordion item: its `data-event-date` attribute (`none` when absent)
and an identifier locating its view elements. -/
structure EventItem where
  dateStr : Option String
  id : Nat
deriving DecidableEq, Repr

/-- JavaScript string falsiness: `!eventDate` holds exactly for an absent or
empty date attribute. -/
def missingDate : Option String → Bool
  | none => true
  | some s => s == ""

/-- One iteration of the `forEach` body of `updateAccordionHeaders` for a
single item, up to the view writes: `none` when the guard
`if (!eventDate || !statusBoxes) return` skips the item, otherwise the
status update pushed to the item's status boxes.  (`querySelectorAll`
always returns a list object, so `!statusBoxes` is never true.) -/
def processItem (parse : String → Option Int) (now : Int) (item : EventItem) :
    Option (Nat × JSStatus) :=
  match item.dateStr with
  | none => none
  | some s =>
    if s == "" then none
    else some (item.id, getEventStatusJS (parse s) now)

/-- The loop body of `updateAccordionHeaders` as a fold step: append the
emitted update, and record the item as `firstLiveEventItem` when its status
is live and no earlier item was recorded. -/
def headerStep (parse : String → Option Int) (now : Int)
    (acc : List (Nat × JSStatus) × Option EventItem) (item : EventItem) :
    List (Nat × JSStatus) × Option EventItem :=
  match processItem parse now item with
  | none => acc
  | some u =>
    (acc.1 ++ [u],
     if u.2 == JSStatus.live && acc.2.isNone then some item else acc.2)

/-- Shallow embedding of `updateAccordionHeaders` (lines 103-160): fold over
the accordion items in document order, collecting the emitted status updates
and tracking `firstLiveEventItem`. -/
def updateAccordionHeaders (parse : String → Option Int) (now : Int)
    (items : List EventItem) : List (Nat × JSStatus) × Option EventItem :=
  items.foldl (headerStep parse now) ([], none)

/-- The first-live check of the loop body: the item is processed (not
skipped) and its computed status is live. -/
def liveItem (parse : String → Option Int) (now : Int) (item : EventItem) :
    Bool :=
  match processItem parse now item with
  | some u => u.2 == JSStatus.live
  | none => false

/-- The `isTemporarilyLive` condition of `updateAccordionHeaders` (line 118)
that decides the `data-is-live` attribute, for a finite event instant. -/
def isTemporarilyLive (eventTime now : Int) : Bool :=
  decide (eventTime - now ≤ LIVE_THRESHOLD_MS) &&
    decide (eventTime + LIVE_DURATION_MS ≥ now)

/-- The accordion view state: which item (by identifier) carries the
`active` class — the code keeps at most one after any toggle — and which
item was last asked to scroll itself into view. -/
structure ViewState where
  expanded : Option Nat
  scrolledTo : Option Nat
deriving DecidableEq, Repr

/-- Shallow embedding of `toggleAccordion` (lines 165-201): with `forceOpen`
the item is treated as closed, every active item is closed first, then the
item is opened and, when forced, scrolled into view. -/
def toggleAccordion (st : ViewState) (itemId : Nat) (forceOpen : Bool) :
    ViewState :=
  let isExpanded := if forceOpen then false else st.expanded == some itemId
  let st1 := if !isExpanded || forceOpen then { st with expanded := none } else st
  if forceOpen || !isExpanded then
    { st1 with expanded := some itemId,
               scrolledTo := if forceOpen then some itemId else st1.scrolledTo }
  else
    { st1 with expanded := none }

/-- The view state before the load sequence: no section active, nothing
scrolled into view. -/
def cleanView : ViewState := ⟨none, none⟩

/-- The `DOMContentLoaded` auto-open step (lines 227-236): run
`updateAccordionHeaders` once and, if it found a first live item, force it
open, which also scrolls it into view. -/
def initialLoad (parse : String → Option Int) (now : Int)
    (items : List EventItem) (st : ViewState) : ViewState :=
  match (updateAccordionHeaders parse now items).2 with
  | some item => toggleAccordion st item.id true
  | none => st

example : getEventStatus 0 0 = EventStatus.live := by decide
example : getEventStatus 21600000 0 = EventStatus.upcoming 0 6 0 0 := by decide
example : getEventStatus 0 21600000 = EventStatus.live := by decide
example : getEventStatus 0 21600001 = EventStatus.passed := by decide
example : getEventStatus 90061000 0 = EventStatus.upcoming 1 1 1 1 := by decide
example : getEventStatusJS none 0 = JSStatus.upcoming none none none none := by
  decide
example : getEventStatusJS (some 0) 0 = JSStatus.live := by decide

/-- C1: for every pair of finite instants, `getEventStatus` returns exactly one
of the three statuses upcoming, live, passed: it is total and never produces
no status or more than one. -/
theorem getEventStatus_exactly_one_status (eventTime now : Int) :
    ((getEventStatus eventTime now).isUpcoming = true ∧
     (getEventStatus eventTime now).isLive = false ∧
     (getEventStatus eventTime now).isPassed = false) ∨
    ((getEventStatus eventTime now).isUpcoming = false ∧
     (getEventStatus eventTime now).isLive = true ∧
     (getEventStatus eventTime now).isPassed = false) ∨
    ((getEventStatus eventTime now).isUpcoming = false ∧
     (getEventStatus eventTime now).isLive = false ∧
     (getEventStatus eventTime now).isPassed = true) := by
  cases h : getEventStatus eventTime now <;>
    simp [EventStatus.isUpcoming, EventStatus.isLive, EventStatus.isPassed]

/-- C2, counterexample: at `now = startInstant + liveDuration` exactly we have
`now ≥ startInstant + liveDuration`, yet the status is not passed (it is
live), because the code's test `distanceToLiveEnd < 0` is strict. -/
theorem getEventStatus_passed_claim_cex :
    (21600000 : Int) ≥ 0 + LIVE_DURATION_MS ∧
      getEventStatus 0 21600000 ≠ EventStatus.passed := by decide

/-- C2, amended: if `now > startInstant + liveDuration` (strictly), the
classifier returns passed, regardless of the other parameters. -/
theorem getEventStatus_passed_of_liveEnd_lt (eventTime now : Int)
    (h : eventTime + LIVE_DURATION_MS < now) :
    getEventStatus eventTime now = EventStatus.passed := by
  simp only [getEventStatus, LIVE_DURATION_MS, LIVE_THRESHOLD_MS] at h ⊢
  split_ifs <;> first | rfl | omega

/-- C2 witness: one millisecond after the live window ends, the status
is passed. -/
theorem getEventStatus_passed_of_liveEnd_lt_witness :
    getEventStatus 0 21600001 = EventStatus.passed :=
  getEventStatus_passed_of_liveEnd_lt 0 21600001 (by decide)

/-- C3: if `startInstant − now ≤ liveThreshold` and
`now < startInstant + liveDuration`, the classifier returns live. -/
theorem getEventStatus_live_in_window (eventTime now : Int)
    (h1 : eventTime - now ≤ LIVE_THRESHOLD_MS)
    (h2 : now < eventTime + LIVE_DURATION_MS) :
    getEventStatus eventTime now = EventStatus.live := by
  simp only [getEventStatus, LIVE_DURATION_MS, LIVE_THRESHOLD_MS] at h1 h2 ⊢
  split_ifs <;> first | rfl | omega

/-- C3 witness: at the nominal start instant itself the status is live. -/
theorem getEventStatus_live_in_window_witness :
    getEventStatus 0 0 = EventStatus.live :=
  getEventStatus_live_in_window 0 0 (by decide) (by decide)

/-- C4: boundary behaviour: at `now = startInstant − liveThreshold` the status
is live (inclusive); at `now = startInstant + liveDuration` exactly the status
is not passed (exclusive); one millisecond later it is passed. -/
theorem getEventStatus_boundaries (eventTime : Int) :
    getEventStatus eventTime (eventTime - LIVE_THRESHOLD_MS) = EventStatus.live ∧
    getEventStatus eventTime (eventTime + LIVE_DURATION_MS) ≠ EventStatus.passed ∧
    getEventStatus eventTime (eventTime + LIVE_DURATION_MS + 1) = EventStatus.passed := by
  refine ⟨?_, ?_, ?_⟩ <;>
    simp only [getEventStatus, LIVE_DURATION_MS, LIVE_THRESHOLD_MS] <;>
    split_ifs <;> first | rfl | omega | simp

/-- C5: whenever the classifier returns upcoming, the components are whole
days, hours in 0–23, minutes in 0–59 and seconds in 0–59, and reassembling
them as seconds equals the floor of the millisecond distance divided
by 1000. -/
theorem getEventStatus_upcoming_decomposition (eventTime now d h m s : Int)
    (heq : getEventStatus eventTime now = EventStatus.upcoming d h m s) :
    0 ≤ d ∧ 0 ≤ h ∧ h < 24 ∧ 0 ≤ m ∧ m < 60 ∧ 0 ≤ s ∧ s < 60 ∧
      d * 86400 + h * 3600 + m * 60 + s = (eventTime - now).fdiv 1000 := by
  simp only [getEventStatus, LIVE_DURATION_MS, LIVE_THRESHOLD_MS] at heq
  split_ifs at heq with g1 g2
  rw [EventStatus.upcoming.injEq] at heq
  obtain ⟨hd, hh, hm, hs⟩ := heq
  subst hd; subst hh; subst hm; subst hs
  rw [Int.tmod_eq_emod (by omega) (by norm_num),
      Int.tmod_eq_emod (by omega) (by norm_num),
      Int.tmod_eq_emod (by omega) (by norm_num),
      Int.fdiv_eq_ediv _ (by norm_num), Int.fdiv_eq_ediv _ (by norm_num),
      Int.fdiv_eq_ediv _ (by norm_num), Int.fdiv_eq_ediv _ (by norm_num),
      Int.fdiv_eq_ediv _ (by norm_num)]
  omega

/-- C5 witness: one day, one hour, one minute and one second before the start,
the decomposition is `1 1 1 1` and reassembles to 90061 seconds. -/
theorem getEventStatus_upcoming_decomposition_witness :
    0 ≤ (1 : Int) ∧ 0 ≤ (1 : Int) ∧ (1 : Int) < 24 ∧ 0 ≤ (1 : Int) ∧
      (1 : Int) < 60 ∧ 0 ≤ (1 : Int) ∧ (1 : Int) < 60 ∧
      (1 : Int) * 86400 + 1 * 3600 + 1 * 60 + 1 =
        ((90061000 : Int) - 0).fdiv 1000 :=
  getEventStatus_upcoming_decomposition 90061000 0 1 1 1 1 (by decide)

/-- C6: for a fixed start instant, the status is monotone in `now` with
respect to the order upcoming < live < passed: an event never regresses. -/
theorem getEventStatus_rank_monotone (eventTime now1 now2 : Int)
    (h : now1 ≤ now2) :
    (getEventStatus eventTime now1).rank ≤ (getEventStatus eventTime now2).rank := by
  simp only [getEventStatus, LIVE_DURATION_MS, LIVE_THRESHOLD_MS]
  split_ifs <;> simp [EventStatus.rank] <;> omega

/-- C6 witness: rank monotonicity at two concrete instants. -/
theorem getEventStatus_rank_monotone_witness :
    (getEventStatus 0 0).rank ≤ (getEventStatus 0 30000000).rank :=
  getEventStatus_rank_monotone 0 0 30000000 (by decide)

/-- C7: the classifier is a pure, deterministic function of
`(startInstant, now)`: identical inputs yield identical status and identical
remaining-time breakdown, with no dependence on any other state. -/
theorem getEventStatus_deterministic (t1 n1 t2 n2 : Int)
    (ht : t1 = t2) (hn : n1 = n2) :
    getEventStatus t1 n1 = getEventStatus t2 n2 := by
  subst ht; subst hn; rfl

/-- C7 witness: determinism at a concrete input. -/
theorem getEventStatus_deterministic_witness :
    getEventStatus 5 7 = getEventStatus 5 7 :=
  getEventStatus_deterministic 5 7 5 7 rfl rfl

/-- The updates collected by the header fold are the processed items in
order, independently of the accumulator's first-live component. -/
theorem headerFold_fst (parse : String → Option Int) (now : Int)
    (items : List EventItem) :
    ∀ acc, (items.foldl (headerStep parse now) acc).1
      = acc.1 ++ items.filterMap (processItem parse now) := by
  induction items with
  | nil => intro acc; simp
  | cons x xs ih =>
    intro acc
    simp only [List.foldl_cons, List.filterMap_cons]
    cases hx : processItem parse now x with
    | none => simp [headerStep, hx, ih]
    | some u => simp [headerStep, hx, ih]

/-- Once `firstLiveEventItem` is set, the header fold never overwrites it. -/
theorem headerFold_snd_some (parse : String → Option Int) (now : Int)
    (items : List EventItem) :
    ∀ acc x, acc.2 = some x →
      (items.foldl (headerStep parse now) acc).2 = some x := by
  induction items with
  | nil => intro acc x hx; simpa using hx
  | cons y ys ih =>
    intro acc x hx
    simp only [List.foldl_cons]
    refine ih _ x ?_
    cases hy : processItem parse now y with
    | none => simpa [headerStep, hy] using hx
    | some u => simp [headerStep, hy, hx]

/-- Starting with no live item recorded, the header fold records exactly the
first processed item whose status is live. -/
theorem headerFold_snd_none (parse : String → Option Int) (now : Int)
    (items : List EventItem) :
    ∀ acc, acc.2 = none →
      (items.foldl (headerStep parse now) acc).2
        = items.find? (liveItem parse now) := by
  induction items with
  | nil => intro acc hacc; simpa using hacc
  | cons y ys ih =>
    intro acc hacc
    simp only [List.foldl_cons]
    cases hy : processItem parse now y with
    | none =>
      rw [List.find?_cons_of_neg _ (by simp [liveItem, hy])]
      exact ih _ (by simpa [headerStep, hy] using hacc)
    | some u =>
      by_cases hlive : u.2 = JSStatus.live
      · rw [List.find?_cons_of_pos _ (by simp [liveItem, hy, hlive])]
        exact headerFold_snd_some parse now ys _ y
          (by simp [headerStep, hy, hacc, hlive])
      · rw [List.find?_cons_of_neg _ (by simp [liveItem, hy, hlive])]
        exact ih _ (by simp [headerStep, hy, hacc, hlive])

/-- C8, counterexample: an event whose start instant is present but
unparseable (`new Date` yields `NaN`) is not skipped by the driver: a status
update is emitted for it, an upcoming update with `NaN` components. -/
theorem unparseable_event_not_skipped_cex :
    (updateAccordionHeaders (fun _ => none) 0 [⟨some "not-a-date", 7⟩]).1 ≠ []
      ∧ (updateAccordionHeaders (fun _ => none) 0 [⟨some "not-a-date", 7⟩]).1
        = [(7, JSStatus.upcoming none none none none)] := by
  constructor
  · decide
  · decide

/-- C8, amended: for every tick and every event whose start instant is
missing (attribute absent or empty), the driver skips that event for that
tick — no status update is emitted for it — and the condition is not fatal:
all other events are still processed normally on the same tick.  (An
unparseable but present start instant is not skipped.) -/
theorem missing_date_event_skipped (parse : String → Option Int) (now : Int)
    (xs ys : List EventItem) (item : EventItem)
    (hmiss : missingDate item.dateStr = true) :
    (updateAccordionHeaders parse now (xs ++ item :: ys)).1
      = (updateAccordionHeaders parse now (xs ++ ys)).1 := by
  have hskip : processItem parse now item = none := by
    unfold processItem
    unfold missingDate at hmiss
    cases hds : item.dateStr with
    | none => rfl
    | some s => rw [hds] at hmiss; simp only [if_pos hmiss]
  simp [updateAccordionHeaders, headerFold_fst, headerStep, hskip]

/-- C8 witness: an event with an absent date attribute between two dated
events emits nothing, and the neighbours are processed as if it were not
there. -/
theorem missing_date_event_skipped_witness :
    (updateAccordionHeaders (fun _ => some 0) 0
        [⟨some "a", 1⟩, ⟨none, 2⟩, ⟨some "b", 3⟩]).1
      = (updateAccordionHeaders (fun _ => some 0) 0
        [⟨some "a", 1⟩, ⟨some "b", 3⟩]).1 :=
  missing_date_event_skipped (fun _ => some 0) 0
    [⟨some "a", 1⟩] [⟨some "b", 3⟩] ⟨none, 2⟩ (by decide)

/-- C9: on initial load from a clean view, if some event is classified live
then the first such event in document order — and only it, the view keeping
a single expanded section — is auto-expanded and scrolled into view; if no
event is live, the view is left untouched with nothing expanded. -/
theorem initialLoad_auto_expands_first_live (parse : String → Option Int)
    (now : Int) (items : List EventItem) :
    (∀ item, items.find? (liveItem parse now) = some item →
      initialLoad parse now items cleanView
        = ⟨some item.id, some item.id⟩) ∧
    (items.find? (liveItem parse now) = none →
      initialLoad parse now items cleanView = cleanView) := by
  have hsnd : (updateAccordionHeaders parse now items).2
      = items.find? (liveItem parse now) :=
    headerFold_snd_none parse now items ([], none) rfl
  constructor
  · intro item hfind
    unfold initialLoad
    rw [hsnd, hfind]
    simp [toggleAccordion, cleanView]
  · intro hfind
    unfold initialLoad
    rw [hsnd, hfind]

/-- C9 witness: with an upcoming event followed by two live ones, the first
live event (identifier 2) is the one expanded and scrolled. -/
theorem initialLoad_auto_expands_first_live_witness :
    initialLoad
        (fun s => if s == "live" then some 0 else some 1000000000) 0
        [⟨some "up", 1⟩, ⟨some "live", 2⟩, ⟨some "live", 3⟩] cleanView
      = ⟨some 2, some 2⟩ :=
  (initialLoad_auto_expands_first_live
      (fun s => if s == "live" then some 0 else some 1000000000) 0
      [⟨some "up", 1⟩, ⟨some "live", 2⟩, ⟨some "live", 3⟩]).1
    ⟨some "live", 2⟩ (by decide)

/-- C10: the `isTemporarilyLive` condition that sets `data-is-live` is
equivalent, at the same `now`, to `getEventStatus` classifying the event as
live: the attribute is set to true exactly when the displayed status is
live. -/
theorem isTemporarilyLive_iff_status_live (eventTime now : Int) :
    isTemporarilyLive eventTime now = true ↔
      getEventStatus eventTime now = EventStatus.live := by
  unfold isTemporarilyLive
  simp only [getEventStatus, LIVE_DURATION_MS, LIVE_THRESHOLD_MS,
    Bool.and_eq_true, decide_eq_true_eq]
  split_ifs <;> simp <;> omega

end Deaflympics
